import Mathlib

/-!
Verification of the task-lifecycle store and log-to-event streaming relay of
src/agent/ai_server.py.

The embedding translates the module's shared state (the `tasks` and `task_logs`
dictionaries), the background runner `execute_agent`, the status endpoint
`get_task_status` and the SSE relay `event_generator` into Lean.  The runner is
modelled as the list of atomic state updates it performs, in program order; a
state trace (one state per observable point) is derived from that list, so the
concurrent reads performed by the relay and the status endpoint can be placed
at any point of the trace.  The external collaborators (the Anthropic model
provider and the RefactorAgent body) are modelled by a `BodyScript` saying at
which point, if any, the body raises and which callbacks it performs first;
Python's `json.loads` is modelled by an executable recursive-descent parser
over the same grammar.  Timestamps (`datetime.utcnow().isoformat()`) are
modelled as the values of a monotone counter.
-/

set_option maxHeartbeats 1000000
set_option maxRecDepth 100000

namespace AiServer

/-- The `TaskStatus` enumeration of ai_server.py (four lowercase strings). -/
inductive TaskStatus where
  | pending
  | running
  | success
  | failed
deriving DecidableEq, Repr

/-- The string value of each `TaskStatus` member, exactly as in the source. -/
def statusStr : TaskStatus → String
  | .pending => "pending"
  | .running => "running"
  | .success => "success"
  | .failed => "failed"

/-- Python's `str.lower`, character-wise (all statuses here are ASCII). -/
def pyLower (s : String) : String := ⟨s.data.map Char.toLower⟩

/-- One entry of the `tasks` dictionary, with the fields created by `run_agent`. -/
structure Task where
  task_id : String
  status : TaskStatus
  init_prompt : String
  created_at : Nat
  started_at : Option Nat
  finished_at : Option Nat
  error_message : Option String
deriving DecidableEq, Repr

instance : Inhabited Task := ⟨⟨"", .pending, "", 0, none, none, none⟩⟩

/-- One entry of a task's log list, as appended by `log_task`. -/
structure LogRecord where
  timestamp : Nat
  message : String
deriving DecidableEq, Repr

/-- The module-level shared state: the `tasks` and `task_logs` dictionaries
(partial maps keyed by task id) plus the clock supplying timestamps. -/
structure ServerState where
  tasks : String → Option Task
  task_logs : String → Option (List LogRecord)
  clock : Nat

/-- The state of a fresh process: both dictionaries empty. -/
def initialState : ServerState := { tasks := fun _ => none, task_logs := fun _ => none, clock := 0 }

instance : Inhabited ServerState := ⟨initialState⟩

mutual

/-- JSON values as decoded by `json.loads`; numbers keep their literal text
(no claim inspects a numeric value, so floating point is avoided), strings
keep their raw source characters between the quotes; arrays and objects use
mutually defined list types so that equality is derivable. -/
inductive Json where
  | null
  | bool (b : Bool)
  | num (lit : String)
  | str (s : String)
  | arr (items : JsonArr)
  | obj (members : JsonObj)

/-- The item list of a JSON array. -/
inductive JsonArr where
  | nil
  | cons (hd : Json) (tl : JsonArr)

/-- The member list of a JSON object. -/
inductive JsonObj where
  | nil
  | cons (key : String) (val : Json) (tl : JsonObj)

end

deriving instance DecidableEq for Json, JsonArr, JsonObj

/-- JSON whitespace accepted by Python's json module. -/
def jwsChar (c : Char) : Bool := c = ' ' || c = '\t' || c = '\n' || c = '\r'

/-- Drop leading JSON whitespace. -/
def skipWs (cs : List Char) : List Char := cs.dropWhile jwsChar

/-- Hexadecimal digit test, for string escapes. -/
def hexDigit (c : Char) : Bool :=
  c.isDigit || ('a' ≤ c && c ≤ 'f') || ('A' ≤ c && c ≤ 'F')

/-- Parse the body of a JSON string after the opening quote, returning the raw
characters between the quotes and the remainder after the closing quote;
mirrors the strict scanner (escapes restricted, no raw control characters). -/
def parseStringBody : Nat → List Char → Option (List Char × List Char)
  | 0, _ => none
  | _ + 1, [] => none
  | n + 1, c :: cs =>
    if c = '"' then some ([], cs)
    else if c = '\\' then
      match cs with
      | [] => none
      | e :: cs2 =>
        if e = '"' || e = '\\' || e = '/' || e = 'b' || e = 'f' || e = 'n' || e = 'r' || e = 't' then
          (parseStringBody n cs2).map (fun p => (c :: e :: p.1, p.2))
        else if e = 'u' then
          match cs2 with
          | h1 :: h2 :: h3 :: h4 :: cs3 =>
            if hexDigit h1 && hexDigit h2 && hexDigit h3 && hexDigit h4 then
              (parseStringBody n cs3).map (fun p => (c :: e :: h1 :: h2 :: h3 :: h4 :: p.1, p.2))
            else none
          | _ => none
        else none
    else if c.toNat < 32 then none
    else (parseStringBody n cs).map (fun p => (c :: p.1, p.2))

/-- Parse the integer part of a JSON number: `0` or a nonzero digit followed
by digits. -/
def parseIntPart : List Char → Option (List Char × List Char)
  | [] => none
  | c :: cs =>
    if c = '0' then some (['0'], cs)
    else if c.isDigit then
      some (c :: cs.takeWhile Char.isDigit, cs.dropWhile Char.isDigit)
    else none

/-- Parse a JSON number (sign, integer part, optional fraction and exponent),
following the NUMBER_RE regular expression of Python's json scanner: a
non-matching fraction or exponent is simply not consumed. -/
def parseNumCore (cs : List Char) : Option (List Char × List Char) :=
  let sgn : List Char × List Char :=
    match cs with
    | '-' :: t => (['-'], t)
    | _ => ([], cs)
  match parseIntPart sgn.2 with
  | none => none
  | some (ip, cs2) =>
    let fr : List Char × List Char :=
      match cs2 with
      | '.' :: t =>
        if (t.headD 'x').isDigit then
          ('.' :: t.takeWhile Char.isDigit, t.dropWhile Char.isDigit)
        else ([], cs2)
      | _ => ([], cs2)
    let ex : List Char × List Char :=
      match fr.2 with
      | e :: t =>
        if e = 'e' || e = 'E' then
          let sg2 : List Char × List Char :=
            match t with
            | c2 :: u => if c2 = '+' || c2 = '-' then ([c2], u) else ([], t)
            | [] => ([], t)
          if (sg2.2.headD 'x').isDigit then
            (e :: sg2.1 ++ sg2.2.takeWhile Char.isDigit, sg2.2.dropWhile Char.isDigit)
          else ([], fr.2)
        else ([], fr.2)
      | [] => ([], fr.2)
    some (sgn.1 ++ ip ++ fr.1 ++ ex.1, ex.2)

mutual

/-- Parse one JSON value (after skipping whitespace); models the value
dispatch of Python's json scanner, including the NaN and Infinity constants. -/
def parseVal : Nat → List Char → Option (Json × List Char)
  | 0, _ => none
  | n + 1, cs0 =>
    let cs := skipWs cs0
    match cs with
    | [] => none
    | '{' :: cs1 =>
      match skipWs cs1 with
      | '}' :: r => some (.obj .nil, r)
      | cs2 => (parseObjItems n cs2).map (fun p => (.obj p.1, p.2))
    | '[' :: cs1 =>
      match skipWs cs1 with
      | ']' :: r => some (.arr .nil, r)
      | cs2 => (parseArrItems n cs2).map (fun p => (.arr p.1, p.2))
    | '"' :: cs1 => (parseStringBody (n + 1) cs1).map (fun p => (.str ⟨p.1⟩, p.2))
    | _ =>
      if "true".data.isPrefixOf cs then some (.bool true, cs.drop 4)
      else if "false".data.isPrefixOf cs then some (.bool false, cs.drop 5)
      else if "null".data.isPrefixOf cs then some (.null, cs.drop 4)
      else if "NaN".data.isPrefixOf cs then some (.num "NaN", cs.drop 3)
      else if "Infinity".data.isPrefixOf cs then some (.num "Infinity", cs.drop 8)
      else if "-Infinity".data.isPrefixOf cs then some (.num "-Infinity", cs.drop 9)
      else (parseNumCore cs).map (fun p => (.num ⟨p.1⟩, p.2))

/-- Parse the comma-separated items of a nonempty JSON array, up to and
including the closing bracket. -/
def parseArrItems : Nat → List Char → Option (JsonArr × List Char)
  | 0, _ => none
  | n + 1, cs =>
    match parseVal n cs with
    | none => none
    | some (v, r) =>
      match skipWs r with
      | ',' :: r2 => (parseArrItems n r2).map (fun p => (.cons v p.1, p.2))
      | ']' :: r2 => some (.cons v .nil, r2)
      | _ => none

/-- Parse the comma-separated members of a nonempty JSON object, up to and
including the closing brace. -/
def parseObjItems : Nat → List Char → Option (JsonObj × List Char)
  | 0, _ => none
  | n + 1, cs =>
    match skipWs cs with
    | '"' :: cs1 =>
      match parseStringBody (n + 1) cs1 with
      | none => none
      | some (k, r) =>
        match skipWs r with
        | ':' :: r2 =>
          match parseVal n r2 with
          | none => none
          | some (v, r3) =>
            match skipWs r3 with
            | ',' :: r4 => (parseObjItems n r4).map (fun p => (.cons ⟨k⟩ v p.1, p.2))
            | '}' :: r4 => some (.cons ⟨k⟩ v .nil, r4)
            | _ => none
        | _ => none
    | _ => none

end

/-- Model of `json.loads`: parse one value and require only whitespace to
remain, else raise (here: `none`). -/
def json_loads (s : String) : Option Json :=
  match parseVal (2 * s.length + 4) s.data with
  | some (v, rest) => if (skipWs rest).isEmpty then some v else none
  | none => none

/-- The structured-event extraction of `event_generator`: if the message
starts with `[` and contains `]`, return the event type between the brackets
and the text after the first `]` and one further character (the source skips
an assumed following space with `close_bracket + 2`); otherwise the message is
a plain log line. -/
def splitEvent (msg : String) : Option (String × String) :=
  match msg.data with
  | [] => none
  | c :: rest =>
    if c = '[' then
      if rest.contains ']' then
        some (⟨rest.takeWhile (fun x => x ≠ ']')⟩,
              ⟨(rest.dropWhile (fun x => x ≠ ']')).drop 2⟩)
      else none
    else none

/-- One event of the SSE stream, as yielded by `event_generator`: a typed
event named by a decoded structured record, a generic `log` event carrying the
record's timestamp and message, or the terminal `status` event. -/
inductive SSEEvent where
  | typed (eventType : String) (data : Json)
  | log (timestamp : Nat) (message : String)
  | status (status : String) (finished_at : Option Nat) (error_message : Option String)
deriving DecidableEq

/-- The per-record translation of `event_generator`: a record matching the
`[type] payload` convention whose payload decodes becomes a typed event; a
decode failure (or a non-matching message) yields the generic `log` event
with the record's timestamp and message. -/
def recordToEvent (r : LogRecord) : SSEEvent :=
  match splitEvent r.message with
  | some (et, jd) =>
    match json_loads jd with
    | some v => .typed et v
    | none => .log r.timestamp r.message
  | none => .log r.timestamp r.message

/-- What one iteration of the relay loop observes of the shared state: the
`task_logs` entry at the time of the read (`none` models a missing key), the
length of that task's log list at the time of the `last_index` update, and the
task's status/finished_at/error_message at the time of the terminal check.
Separate observation points model the suspensions (yields) inside the loop,
during which the runner thread may write. -/
structure PollObs where
  logsObs : Option (List LogRecord)
  logsLen : Nat
  statusObs : TaskStatus
  finishedObs : Option Nat
  errorObs : Option String
deriving DecidableEq, Repr

/-- The terminal `status` event built by `event_generator`: the stored status
lower-cased, plus `finished_at` and `error_message`. -/
def statusEvent (o : PollObs) : SSEEvent :=
  .status (pyLower (statusStr o.statusObs)) o.finishedObs o.errorObs

/-- The log-draining part of one relay iteration: if the `task_logs` key is
missing nothing is emitted and the offset is kept; otherwise one event per
record from the current offset on is emitted and the offset becomes the
observed live length of the log list (`last_index = len(current_logs)`). -/
def pollEvents (idx : Nat) (o : PollObs) : List SSEEvent × Nat :=
  match o.logsObs with
  | none => ([], idx)
  | some logs => ((logs.drop idx).map recordToEvent, o.logsLen)

/-- The relay loop of `event_generator`, driven by the sequence of per-poll
observations: each iteration drains the log as in `pollEvents` and then, if
the terminal check sees SUCCESS or FAILED, emits the final `status` event and
closes; an exhausted observation list models a still-open stream. -/
def event_generator : Nat → List PollObs → List SSEEvent
  | _, [] => []
  | idx, o :: rest =>
    if o.statusObs = .success ∨ o.statusObs = .failed then
      (pollEvents idx o).1 ++ [statusEvent o]
    else
      (pollEvents idx o).1 ++ event_generator (pollEvents idx o).2 rest
/-- The atomic state updates performed by `execute_agent`, one per Python
statement that writes the shared dictionaries: resetting a task's log list,
writing one field of the task record, or appending one log record via
`log_task`.  The runner executes as a plain function in a worker thread, so
every point between two of these writes is observable by the async readers. -/
inductive Action where
  | resetLog
  | setStatus (s : TaskStatus)
  | setStarted
  | setFinished
  | setError (msg : String)
  | appendLog (msg : String)
deriving DecidableEq, Repr

/-- The `log_task` helper: create the log list if the id is unknown, then
append one record carrying the current timestamp and the message. -/
def log_task (st : ServerState) (tid msg : String) : ServerState :=
  { st with
    task_logs := fun k =>
      if k = tid then some ((st.task_logs tid).getD [] ++ [⟨st.clock, msg⟩])
      else st.task_logs k
    clock := st.clock + 1 }

/-- Update the task record stored under `tid`, if present (in every reachable
trace the record is present, having been created by `run_agent`). -/
def updTask (st : ServerState) (tid : String) (f : Task → Task) : ServerState :=
  { st with tasks := fun k => if k = tid then (st.tasks k).map f else st.tasks k }

/-- The effect of one atomic runner write on the shared state. -/
def applyAction (tid : String) (st : ServerState) : Action → ServerState
  | .resetLog =>
    { st with task_logs := fun k => if k = tid then some [] else st.task_logs k }
  | .setStatus s => updTask st tid (fun t => { t with status := s })
  | .setStarted =>
    { updTask st tid (fun t => { t with started_at := some st.clock }) with clock := st.clock + 1 }
  | .setFinished =>
    { updTask st tid (fun t => { t with finished_at := some st.clock }) with clock := st.clock + 1 }
  | .setError m => updTask st tid (fun t => { t with error_message := some m })
  | .appendLog m => log_task st tid m

/-- The behaviour of the external collaborators invoked inside the `try`
block: the provider initialisation may raise, the RefactorAgent construction
may raise, or `agent.run` performs a list of callbacks (each given as the
event type and the already JSON-serialized data) and then either returns
normally or raises.  A raised Python exception is represented by its `str(e)`
text together with the `traceback.format_exc()` text. -/
inductive BodyScript where
  | providerFails (emsg tb : String)
  | agentCtorFails (emsg tb : String)
  | runs (callbacks : List (String × String)) (raised : Option (String × String))
deriving DecidableEq, Repr

/-- The writes of the `except Exception` handler, in source order: two log
appends (the error line and the traceback line), then status := FAILED, then
error_message, then finished_at. -/
def failTail (emsg tb : String) : List Action :=
  [ .appendLog ("❌ 錯誤: Agent execution failed: " ++ emsg),
    .appendLog ("Traceback: " ++ tb),
    .setStatus .failed,
    .setError ("Agent execution failed: " ++ emsg),
    .setFinished ]

/-- The writes of the success epilogue, in source order: status := SUCCESS,
then finished_at, then one further log append. -/
def successTail : List Action :=
  [ .setStatus .success, .setFinished, .appendLog "✅ Agent 執行完成" ]

/-- The writes of `execute_agent` up to the provider initialisation. -/
def preActions : List Action :=
  [ .resetLog,
    .setStatus .running,
    .setStarted,
    .appendLog "🚀 開始執行 Agent",
    .appendLog "🔧 初始化 LLM..." ]

/-- The writes between the provider initialisation and the RefactorAgent
construction. -/
def ctorActions : List Action :=
  [ .appendLog "✅ LLM 初始化完成",
    .appendLog "🤖 建立 RefactorAgent..." ]

/-- The writes between the RefactorAgent construction and `agent.run`. -/
def builtActions (init_prompt : String) : List Action :=
  [ .appendLog "✅ RefactorAgent 建立完成",
    .appendLog ("▶️  執行 Agent，init_prompt: " ++ init_prompt.take 100 ++ "...") ]

/-- The log append performed by `handle_chunk_event` for one callback. -/
def cbAction (c : String × String) : Action := .appendLog ("[" ++ c.1 ++ "] " ++ c.2)

/-- The complete ordered list of atomic writes performed by `execute_agent`
for a given body behaviour: the shared prefix, the progress appends reached,
one append per callback, and the success or failure epilogue. -/
def execute_agent_actions (init_prompt : String) : BodyScript → List Action
  | .providerFails e tb => preActions ++ failTail e tb
  | .agentCtorFails e tb => preActions ++ ctorActions ++ failTail e tb
  | .runs cbs raised =>
    preActions ++ ctorActions ++ builtActions init_prompt ++ cbs.map cbAction ++
      (match raised with
       | none => successTail
       | some (e, tb) => failTail e tb)

/-- The sequence of observable states of a runner execution: the start state
followed by the state after each atomic write. -/
def runStates (tid : String) : ServerState → List Action → List ServerState
  | s, [] => [s]
  | s, a :: as => s :: runStates tid (applyAction tid s a) as

/-- The state after executing a list of atomic writes. -/
def execState (tid : String) (s : ServerState) (acts : List Action) : ServerState :=
  acts.foldl (applyAction tid) s

/-- The task-record creation of the `/run` endpoint (`run_agent`): a PENDING
task with the submitted prompt, a fresh `created_at`, and the remaining
fields unset. -/
def run_agent (st : ServerState) (tid prompt : String) : ServerState :=
  { st with
    tasks := fun k =>
      if k = tid then
        some { task_id := tid, status := .pending, init_prompt := prompt,
               created_at := st.clock, started_at := none, finished_at := none,
               error_message := none }
      else st.tasks k
    clock := st.clock + 1 }

/-- JSON encoding of an optional string field of the response. -/
def optStrJson : Option String → Json
  | none => .null
  | some s => .str s

/-- JSON encoding of an optional timestamp field of the response. -/
def optTimeJson : Option Nat → Json
  | none => .null
  | some n => .str (toString n)

/-- The get-status endpoint (`get_task_status`): 404 for an
unknown id, otherwise the response body with exactly the fields of the
`TaskStatusResponse` model, as named key/value pairs. -/
def get_task_status (st : ServerState) (tid : String) : Except Nat (List (String × Json)) :=
  match st.tasks tid with
  | none => .error 404
  | some t =>
    .ok [ ("task_id", .str t.task_id),
          ("status", .str (statusStr t.status)),
          ("created_at", .str (toString t.created_at)),
          ("started_at", optTimeJson t.started_at),
          ("finished_at", optTimeJson t.finished_at),
          ("error_message", optStrJson t.error_message) ]

/-- The points of the state trace at which one relay iteration performs its
reads: `r` at the log read (`current_logs[last_index:]`), `u` at the offset
update (`len(current_logs)`), `c` at the terminal check and the construction
of the status event.  The iteration suspends at each yield between `r` and
`u`, so runner writes may fall in between. -/
structure PollIdx where
  r : Nat
  u : Nat
  c : Nat
deriving DecidableEq, Repr

/-- The observation a relay iteration makes when its reads are placed at the
given points of a state trace. -/
def obsAt (sts : List ServerState) (tid : String) (p : PollIdx) : PollObs :=
  let tk : Task := ((sts.getD p.c default).tasks tid).getD default
  { logsObs := (sts.getD p.r default).task_logs tid
    logsLen := (((sts.getD p.u default).task_logs tid).getD []).length
    statusObs := tk.status
    finishedObs := tk.finished_at
    errorObs := tk.error_message }

/-- A schedule of relay iterations is valid for a trace of length `n` when
each iteration's reads are ordered with the iteration (read, then update,
then check) and iterations do not move backwards in time. -/
def validSched (n : Nat) : Nat → List PollIdx → Bool
  | _, [] => true
  | t, p :: ps =>
    decide (t ≤ p.r) && decide (p.r ≤ p.u) && decide (p.u ≤ p.c) && decide (p.c < n) &&
      validSched n p.c ps

/-! Projection lemmas: the effect of each atomic runner write on the three
components of the shared state. -/

@[simp]
lemma tasks_resetLog (tid : String) (s : ServerState) :
    (applyAction tid s .resetLog).tasks = s.tasks := rfl

@[simp]
lemma logs_resetLog (tid : String) (s : ServerState) :
    (applyAction tid s .resetLog).task_logs tid = some [] := by
  simp [applyAction]

@[simp]
lemma clock_resetLog (tid : String) (s : ServerState) :
    (applyAction tid s .resetLog).clock = s.clock := rfl

@[simp]
lemma tasks_setStatus (tid : String) (s : ServerState) (x : TaskStatus) :
    (applyAction tid s (.setStatus x)).tasks tid =
      (s.tasks tid).map (fun t => { t with status := x }) := by
  simp [applyAction, updTask]

@[simp]
lemma logs_setStatus (tid : String) (s : ServerState) (x : TaskStatus) :
    (applyAction tid s (.setStatus x)).task_logs = s.task_logs := rfl

@[simp]
lemma clock_setStatus (tid : String) (s : ServerState) (x : TaskStatus) :
    (applyAction tid s (.setStatus x)).clock = s.clock := rfl

@[simp]
lemma tasks_setStarted (tid : String) (s : ServerState) :
    (applyAction tid s .setStarted).tasks tid =
      (s.tasks tid).map (fun t => { t with started_at := some s.clock }) := by
  simp [applyAction, updTask]

@[simp]
lemma logs_setStarted (tid : String) (s : ServerState) :
    (applyAction tid s .setStarted).task_logs = s.task_logs := rfl

@[simp]
lemma clock_setStarted (tid : String) (s : ServerState) :
    (applyAction tid s .setStarted).clock = s.clock + 1 := rfl

@[simp]
lemma tasks_setFinished (tid : String) (s : ServerState) :
    (applyAction tid s .setFinished).tasks tid =
      (s.tasks tid).map (fun t => { t with finished_at := some s.clock }) := by
  simp [applyAction, updTask]

@[simp]
lemma logs_setFinished (tid : String) (s : ServerState) :
    (applyAction tid s .setFinished).task_logs = s.task_logs := rfl

@[simp]
lemma clock_setFinished (tid : String) (s : ServerState) :
    (applyAction tid s .setFinished).clock = s.clock + 1 := rfl

@[simp]
lemma tasks_setError (tid : String) (s : ServerState) (m : String) :
    (applyAction tid s (.setError m)).tasks tid =
      (s.tasks tid).map (fun t => { t with error_message := some m }) := by
  simp [applyAction, updTask]

@[simp]
lemma logs_setError (tid : String) (s : ServerState) (m : String) :
    (applyAction tid s (.setError m)).task_logs = s.task_logs := rfl

@[simp]
lemma clock_setError (tid : String) (s : ServerState) (m : String) :
    (applyAction tid s (.setError m)).clock = s.clock := rfl

@[simp]
lemma tasks_appendLog (tid : String) (s : ServerState) (m : String) :
    (applyAction tid s (.appendLog m)).tasks = s.tasks := rfl

@[simp]
lemma logs_appendLog (tid : String) (s : ServerState) (m : String) :
    (applyAction tid s (.appendLog m)).task_logs tid =
      some ((s.task_logs tid).getD [] ++ [⟨s.clock, m⟩]) := by
  simp [applyAction, log_task]

@[simp]
lemma clock_appendLog (tid : String) (s : ServerState) (m : String) :
    (applyAction tid s (.appendLog m)).clock = s.clock + 1 := rfl

@[simp]
lemma tasks_run_agent (st : ServerState) (tid prompt : String) :
    (run_agent st tid prompt).tasks tid =
      some { task_id := tid, status := .pending, init_prompt := prompt,
             created_at := st.clock, started_at := none, finished_at := none,
             error_message := none } := by
  simp [run_agent]

@[simp]
lemma logs_run_agent (st : ServerState) (tid prompt : String) :
    (run_agent st tid prompt).task_logs = st.task_logs := rfl

@[simp]
lemma clock_run_agent (st : ServerState) (tid prompt : String) :
    (run_agent st tid prompt).clock = st.clock + 1 := rfl

/-! Basic structure of traces and folds. -/

lemma execState_nil (tid : String) (s : ServerState) : execState tid s [] = s := rfl

lemma execState_cons (tid : String) (s : ServerState) (a : Action) (as : List Action) :
    execState tid s (a :: as) = execState tid (applyAction tid s a) as := rfl

lemma execState_append (tid : String) (s : ServerState) (as bs : List Action) :
    execState tid s (as ++ bs) = execState tid (execState tid s as) bs :=
  List.foldl_append _ _ _ _

/-- The start state is always an element of its own trace. -/
lemma self_mem_runStates (tid : String) (s₀ : ServerState) (bs : List Action) :
    s₀ ∈ runStates tid s₀ bs := by
  cases bs <;> simp [runStates]

lemma mem_runStates_append (tid : String) (s₀ x : ServerState) (as bs : List Action) :
    x ∈ runStates tid s₀ (as ++ bs) ↔
      x ∈ runStates tid s₀ as ∨ x ∈ runStates tid (execState tid s₀ as) bs := by
  induction as generalizing s₀ with
  | nil =>
    simp only [List.nil_append, execState_nil, runStates, List.mem_singleton]
    constructor
    · intro h; exact Or.inr h
    · rintro (rfl | h)
      · exact self_mem_runStates tid _ bs
      · exact h
  | cons a as ih =>
    constructor
    · intro h
      rw [List.cons_append] at h
      simp only [runStates, List.mem_cons] at h
      rcases h with rfl | h
      · exact Or.inl (self_mem_runStates tid _ (a :: as))
      · rcases (ih (applyAction tid s₀ a)).mp h with h' | h'
        · exact Or.inl (by simp only [runStates, List.mem_cons]; exact Or.inr h')
        · exact Or.inr (by rw [execState_cons]; exact h')
    · intro h
      rw [List.cons_append]
      simp only [runStates, List.mem_cons]
      rcases h with h | h
      · simp only [runStates, List.mem_cons] at h
        rcases h with rfl | h
        · exact Or.inl rfl
        · exact Or.inr ((ih (applyAction tid s₀ a)).mpr (Or.inl h))
      · refine Or.inr ((ih (applyAction tid s₀ a)).mpr (Or.inr ?_))
        rw [execState_cons] at h
        exact h

/-- An action is benign when it touches neither `finished_at` nor
`error_message`. -/
def benign : Action → Bool
  | .setError _ => false
  | .setFinished => false
  | _ => true

lemma benign_step (tid : String) (s : ServerState) (a : Action) (t : Task)
    (hb : benign a = true) (ht : s.tasks tid = some t) :
    ∃ t', (applyAction tid s a).tasks tid = some t' ∧
      t'.finished_at = t.finished_at ∧ t'.error_message = t.error_message := by
  cases a with
  | resetLog => exact ⟨t, by simp [ht], rfl, rfl⟩
  | setStatus x => exact ⟨{ t with status := x }, by simp [ht], rfl, rfl⟩
  | setStarted => exact ⟨{ t with started_at := some s.clock }, by simp [ht], rfl, rfl⟩
  | setFinished => simp [benign] at hb
  | setError m => simp [benign] at hb
  | appendLog m => exact ⟨t, by simp [ht], rfl, rfl⟩

lemma benign_trace (tid : String) (acts : List Action) :
    ∀ (s₀ : ServerState) (t₀ : Task), (∀ a ∈ acts, benign a = true) →
      s₀.tasks tid = some t₀ →
      ∀ x ∈ runStates tid s₀ acts, ∃ t, x.tasks tid = some t ∧
        t.finished_at = t₀.finished_at ∧ t.error_message = t₀.error_message := by
  induction acts with
  | nil =>
    intro s₀ t₀ _ h₀ x hx
    simp [runStates] at hx
    exact ⟨t₀, hx ▸ h₀, rfl, rfl⟩
  | cons a as ih =>
    intro s₀ t₀ hb h₀ x hx
    simp only [runStates, List.mem_cons] at hx
    rcases hx with hx | hx
    · exact ⟨t₀, hx ▸ h₀, rfl, rfl⟩
    · obtain ⟨t₁, ht₁, hf₁, he₁⟩ :=
        benign_step tid s₀ a t₀ (hb a (List.mem_cons_self a as)) h₀
      obtain ⟨t, ht, hf, he⟩ := ih (applyAction tid s₀ a) t₁
        (fun b hbmem => hb b (List.mem_cons_of_mem a hbmem)) ht₁ x hx
      exact ⟨t, ht, hf.trans hf₁, he.trans he₁⟩

lemma benign_exec (tid : String) (acts : List Action) :
    ∀ (s₀ : ServerState) (t₀ : Task), (∀ a ∈ acts, benign a = true) →
      s₀.tasks tid = some t₀ →
      ∃ t, (execState tid s₀ acts).tasks tid = some t ∧
        t.finished_at = t₀.finished_at ∧ t.error_message = t₀.error_message := by
  induction acts with
  | nil =>
    intro s₀ t₀ _ h₀
    exact ⟨t₀, h₀, rfl, rfl⟩
  | cons a as ih =>
    intro s₀ t₀ hb h₀
    obtain ⟨t₁, ht₁, hf₁, he₁⟩ := benign_step tid s₀ a t₀ (hb a (List.mem_cons_self a as)) h₀
    obtain ⟨t, ht, hf, he⟩ := ih (applyAction tid s₀ a) t₁
      (fun b hbmem => hb b (List.mem_cons_of_mem a hbmem)) ht₁
    exact ⟨t, by simpa [execState_cons] using ht, hf.trans hf₁, he.trans he₁⟩

/-- Every element of a `getD` lookup is either a member of the list or the
default value. -/
lemma getD_mem_or {α : Type} (l : List α) (i : Nat) (d : α) :
    l.getD i d ∈ l ∨ l.getD i d = d := by
  by_cases h : i < l.length
  · left
    rw [List.getD_eq_getElem l d h]
    exact l.getElem_mem h
  · right
    exact List.getD_eq_default l d (Nat.le_of_not_lt h)

/-- The error message recorded by the except-handler for a given body
behaviour, or `none` when the body completes normally. -/
def scriptError : BodyScript → Option String
  | .providerFails e _ => some ("Agent execution failed: " ++ e)
  | .agentCtorFails e _ => some ("Agent execution failed: " ++ e)
  | .runs _ (some p) => some ("Agent execution failed: " ++ p.1)
  | .runs _ none => none

/-- The segment of runner writes before the terminal epilogue is benign. -/
lemma benign_segment (prompt : String) (cbs : List (String × String)) :
    ∀ a ∈ preActions ++ (ctorActions ++ (builtActions prompt ++ cbs.map cbAction)),
      benign a = true := by
  intro a ha
  simp only [List.mem_append, List.mem_map] at ha
  rcases ha with ha | ha | ha | ⟨c, _, rfl⟩
  · fin_cases ha <;> rfl
  · fin_cases ha <;> rfl
  · fin_cases ha <;> rfl
  · rfl

lemma benign_pre : ∀ a ∈ preActions, benign a = true := by
  intro a ha; fin_cases ha <;> rfl

lemma benign_pre_ctor : ∀ a ∈ preActions ++ ctorActions, benign a = true := by
  intro a ha; fin_cases ha <;> rfl

/-- The task-field invariant the amended C1 asserts at every observable
point: `finished_at` only set in a terminal status, `error_message` only set
in FAILED. -/
def taskInv (t : Task) : Prop :=
  (t.finished_at ≠ none → t.status = .success ∨ t.status = .failed) ∧
  (t.error_message ≠ none → t.status = .failed)

/-- A task with both fields unset satisfies the invariant vacuously. -/
lemma taskInv_of_none {t : Task} (hf : t.finished_at = none) (he : t.error_message = none) :
    taskInv t := by
  constructor
  · intro h; exact absurd hf h
  · intro h; exact absurd he h

/-- Every state of the except-handler epilogue satisfies the invariant,
starting from a state whose task has both fields unset. -/
lemma fail_tail_trace (tid e tb : String) (s₂ : ServerState) (t₂ : Task)
    (h : s₂.tasks tid = some t₂) (hf : t₂.finished_at = none) (he : t₂.error_message = none) :
    ∀ x ∈ runStates tid s₂ (failTail e tb), ∃ t, x.tasks tid = some t ∧ taskInv t := by
  intro x hx
  simp only [failTail, runStates, List.mem_cons, List.mem_singleton, List.not_mem_nil, or_false] at hx
  rcases hx with rfl | rfl | rfl | rfl | rfl | rfl
  · exact ⟨t₂, h, taskInv_of_none hf he⟩
  · exact ⟨t₂, by simp [h], taskInv_of_none hf he⟩
  · exact ⟨t₂, by simp [h], taskInv_of_none hf he⟩
  · exact ⟨{ t₂ with status := .failed }, by simp [h], taskInv_of_none hf he⟩
  · refine ⟨{ t₂ with status := .failed, error_message := some ("Agent execution failed: " ++ e) },
      by simp [h], ?_, ?_⟩
    · intro hcon; exact absurd hf hcon
    · intro _; rfl
  · refine ⟨{ t₂ with status := .failed, error_message := some ("Agent execution failed: " ++ e), finished_at := some (s₂.clock + 2) }, by simp [h], ?_, ?_⟩
    · intro _; exact Or.inr rfl
    · intro _; rfl

/-- Every state of the success epilogue satisfies the invariant, starting
from a state whose task has both fields unset. -/
lemma success_tail_trace (tid : String) (s₂ : ServerState) (t₂ : Task)
    (h : s₂.tasks tid = some t₂) (hf : t₂.finished_at = none) (he : t₂.error_message = none) :
    ∀ x ∈ runStates tid s₂ successTail, ∃ t, x.tasks tid = some t ∧ taskInv t := by
  intro x hx
  simp only [successTail, runStates, List.mem_cons, List.mem_singleton, List.not_mem_nil,
    or_false] at hx
  rcases hx with rfl | rfl | rfl | rfl
  · exact ⟨t₂, h, taskInv_of_none hf he⟩
  · exact ⟨{ t₂ with status := .success }, by simp [h], taskInv_of_none hf he⟩
  · refine ⟨{ t₂ with status := .success, finished_at := some s₂.clock }, by simp [h], ?_, ?_⟩
    · intro _; exact Or.inl rfl
    · intro hcon; exact absurd he hcon
  · refine ⟨{ t₂ with status := .success, finished_at := some s₂.clock }, by simp [h], ?_, ?_⟩
    · intro _; exact Or.inl rfl
    · intro hcon; exact absurd he hcon

/-- Final state of the except-handler epilogue. -/
lemma fail_tail_exec (tid e tb : String) (s₂ : ServerState) (t₂ : Task)
    (h : s₂.tasks tid = some t₂) :
    (execState tid s₂ (failTail e tb)).tasks tid =
      some { t₂ with status := .failed,
                     error_message := some ("Agent execution failed: " ++ e),
                     finished_at := some (s₂.clock + 2) } := by
  simp [failTail, execState, h]

/-- Final state of the success epilogue. -/
lemma success_tail_exec (tid : String) (s₂ : ServerState) (t₂ : Task)
    (h : s₂.tasks tid = some t₂) :
    (execState tid s₂ successTail).tasks tid =
      some { t₂ with status := .success, finished_at := some s₂.clock } := by
  simp [successTail, execState, h]

/-- The action list of each body behaviour, re-associated as one benign
segment followed by the terminal epilogue. -/
lemma actions_split (prompt : String) :
    (∀ e tb, execute_agent_actions prompt (.providerFails e tb) =
      preActions ++ failTail e tb) ∧
    (∀ e tb, execute_agent_actions prompt (.agentCtorFails e tb) =
      (preActions ++ ctorActions) ++ failTail e tb) ∧
    (∀ cbs, execute_agent_actions prompt (.runs cbs none) =
      (preActions ++ (ctorActions ++ (builtActions prompt ++ cbs.map cbAction))) ++
        successTail) ∧
    (∀ cbs e tb, execute_agent_actions prompt (.runs cbs (some (e, tb))) =
      (preActions ++ (ctorActions ++ (builtActions prompt ++ cbs.map cbAction))) ++
        failTail e tb) := by
  refine ⟨fun e tb => rfl, fun e tb => by simp [execute_agent_actions, List.append_assoc],
    fun cbs => by simp [execute_agent_actions, List.append_assoc],
    fun cbs e tb => by simp [execute_agent_actions, List.append_assoc]⟩

/-- The task record created by submission. -/
def initialTask (st : ServerState) (tid prompt : String) : Task :=
  { task_id := tid, status := .pending, init_prompt := prompt, created_at := st.clock,
    started_at := none, finished_at := none, error_message := none }

/-- Every observable state of a full runner execution over a freshly
submitted task satisfies the task-field invariant. -/
lemma trace_inv (st : ServerState) (tid prompt : String) (script : BodyScript) :
    ∀ x ∈ runStates tid (run_agent st tid prompt) (execute_agent_actions prompt script),
      ∃ t, x.tasks tid = some t ∧ taskInv t := by
  intro x hx
  have h₀ : (run_agent st tid prompt).tasks tid = some (initialTask st tid prompt) :=
    tasks_run_agent st tid prompt
  have hbenign := fun seg (hb : ∀ a ∈ seg, benign a = true) (hmem : x ∈ runStates tid (run_agent st tid prompt) seg) =>
    (benign_trace tid seg (run_agent st tid prompt) (initialTask st tid prompt) hb h₀ x hmem)
  cases script with
  | providerFails e tb =>
    rw [(actions_split prompt).1 e tb, mem_runStates_append] at hx
    rcases hx with hx | hx
    · obtain ⟨t, ht, hf, he⟩ := hbenign preActions benign_pre hx
      exact ⟨t, ht, taskInv_of_none hf he⟩
    · obtain ⟨t₂, ht₂, hf₂, he₂⟩ := benign_exec tid preActions _ _ benign_pre h₀
      exact fail_tail_trace tid e tb _ t₂ ht₂ hf₂ he₂ x hx
  | agentCtorFails e tb =>
    rw [(actions_split prompt).2.1 e tb, mem_runStates_append] at hx
    rcases hx with hx | hx
    · obtain ⟨t, ht, hf, he⟩ := hbenign (preActions ++ ctorActions) benign_pre_ctor hx
      exact ⟨t, ht, taskInv_of_none hf he⟩
    · obtain ⟨t₂, ht₂, hf₂, he₂⟩ := benign_exec tid (preActions ++ ctorActions) _ _ benign_pre_ctor h₀
      exact fail_tail_trace tid e tb _ t₂ ht₂ hf₂ he₂ x hx
  | runs cbs raised =>
    cases raised with
    | none =>
      rw [(actions_split prompt).2.2.1 cbs, mem_runStates_append] at hx
      rcases hx with hx | hx
      · obtain ⟨t, ht, hf, he⟩ := hbenign _ (benign_segment prompt cbs) hx
        exact ⟨t, ht, taskInv_of_none hf he⟩
      · obtain ⟨t₂, ht₂, hf₂, he₂⟩ := benign_exec tid _ _ _ (benign_segment prompt cbs) h₀
        exact success_tail_trace tid _ t₂ ht₂ hf₂ he₂ x hx
    | some p =>
      obtain ⟨e, tb⟩ := p
      rw [(actions_split prompt).2.2.2 cbs e tb, mem_runStates_append] at hx
      rcases hx with hx | hx
      · obtain ⟨t, ht, hf, he⟩ := hbenign _ (benign_segment prompt cbs) hx
        exact ⟨t, ht, taskInv_of_none hf he⟩
      · obtain ⟨t₂, ht₂, hf₂, he₂⟩ := benign_exec tid _ _ _ (benign_segment prompt cbs) h₀
        exact fail_tail_trace tid e tb _ t₂ ht₂ hf₂ he₂ x hx

/-- The final state of a full runner execution: the terminal status matches
the body behaviour, the error message is exactly the recorded one, and
`finished_at` is set. -/
lemma final_state_fields (st : ServerState) (tid prompt : String) (script : BodyScript) :
    ∃ t, (execState tid (run_agent st tid prompt) (execute_agent_actions prompt script)).tasks tid
        = some t ∧
      t.status = (if (scriptError script).isSome then TaskStatus.failed else .success) ∧
      t.error_message = scriptError script ∧
      t.finished_at ≠ none := by
  have h₀ : (run_agent st tid prompt).tasks tid = some (initialTask st tid prompt) :=
    tasks_run_agent st tid prompt
  cases script with
  | providerFails e tb =>
    rw [(actions_split prompt).1 e tb, execState_append]
    obtain ⟨t₂, ht₂, hf₂, he₂⟩ := benign_exec tid preActions _ _ benign_pre h₀
    rw [fail_tail_exec tid e tb _ t₂ ht₂]
    exact ⟨_, rfl, rfl, rfl, by simp⟩
  | agentCtorFails e tb =>
    rw [(actions_split prompt).2.1 e tb, execState_append]
    obtain ⟨t₂, ht₂, hf₂, he₂⟩ := benign_exec tid (preActions ++ ctorActions) _ _ benign_pre_ctor h₀
    rw [fail_tail_exec tid e tb _ t₂ ht₂]
    exact ⟨_, rfl, rfl, rfl, by simp⟩
  | runs cbs raised =>
    cases raised with
    | none =>
      rw [(actions_split prompt).2.2.1 cbs, execState_append]
      obtain ⟨t₂, ht₂, hf₂, he₂⟩ := benign_exec tid _ _ _ (benign_segment prompt cbs) h₀
      rw [success_tail_exec tid _ t₂ ht₂]
      exact ⟨_, rfl, rfl, by simp [scriptError, he₂, initialTask], by simp⟩
    | some p =>
      obtain ⟨e, tb⟩ := p
      rw [(actions_split prompt).2.2.2 cbs e tb, execState_append]
      obtain ⟨t₂, ht₂, hf₂, he₂⟩ := benign_exec tid _ _ _ (benign_segment prompt cbs) h₀
      rw [fail_tail_exec tid e tb _ t₂ ht₂]
      exact ⟨_, rfl, rfl, rfl, by simp⟩

/-- Per-record translation never yields the terminal `status` framing: a log
record becomes a typed event or a generic `log` event. -/
lemma recordToEvent_ne_status (r : LogRecord) (s : String) (f : Option Nat)
    (em : Option String) : recordToEvent r ≠ .status s f em := by
  unfold recordToEvent
  cases h : splitEvent r.message with
  | none => simp
  | some p =>
    cases hj : json_loads p.2 with
    | none => simp [hj]
    | some v => simp [hj]

/-- Every event of the log-draining part of a poll is the translation of some
log record. -/
lemma pollEvents_mem (idx : Nat) (o : PollObs) :
    ∀ e ∈ (pollEvents idx o).1, ∃ r, e = recordToEvent r := by
  intro e he
  cases h : o.logsObs with
  | none => simp [pollEvents, h] at he
  | some logs =>
    simp only [pollEvents, h, List.mem_map] at he
    obtain ⟨r, _, rfl⟩ := he
    exact ⟨r, rfl⟩

/-- C3: for every stream over a known task, once some poll's terminal check
observes SUCCESS or FAILED, the emitted stream is a prefix of non-status
events followed by exactly one final `status` event (built from the first
terminal observation), after which the generator closes; this holds whether
or not any log records exist. -/
theorem c3_terminal_emits_single_final_status (idx : Nat) (obs : List PollObs)
    (h : ∃ o ∈ obs, o.statusObs = .success ∨ o.statusObs = .failed) :
    ∃ pre o', (o'.statusObs = .success ∨ o'.statusObs = .failed) ∧
      event_generator idx obs = pre ++ [statusEvent o'] ∧
      ∀ e ∈ pre, ∀ s f em, e ≠ SSEEvent.status s f em := by
  induction obs generalizing idx with
  | nil => simp at h
  | cons o rest ih =>
    by_cases ht : o.statusObs = .success ∨ o.statusObs = .failed
    · refine ⟨(pollEvents idx o).1, o, ht, ?_, ?_⟩
      · simp [event_generator, ht]
      · intro e he s f em
        obtain ⟨r, rfl⟩ := pollEvents_mem idx o e he
        exact recordToEvent_ne_status r s f em
    · have h' : ∃ o' ∈ rest, o'.statusObs = .success ∨ o'.statusObs = .failed := by
        obtain ⟨o₁, hmem, hterm⟩ := h
        rcases List.mem_cons.mp hmem with rfl | hmem'
        · exact absurd hterm ht
        · exact ⟨o₁, hmem', hterm⟩
      obtain ⟨pre, o', ho', heq, hpre⟩ := ih (pollEvents idx o).2 h'
      refine ⟨(pollEvents idx o).1 ++ pre, o', ho', ?_, ?_⟩
      · simp [event_generator, ht, heq]
      · intro e he s f em
        rcases List.mem_append.mp he with he | he
        · obtain ⟨r, rfl⟩ := pollEvents_mem idx o e he
          exact recordToEvent_ne_status r s f em
        · exact hpre e he s f em

/-- Witness for C3 at a concrete input: a single poll that observes a FAILED
task with no log list at all still yields exactly the final status event. -/
theorem c3_terminal_emits_single_final_status_witness :
    event_generator 0 [⟨none, 0, .failed, some 7, some "boom"⟩] =
      [SSEEvent.status "failed" (some 7) (some "boom")] ∧
    (∃ pre o', (o'.statusObs = .success ∨ o'.statusObs = .failed) ∧
      event_generator 0 [⟨none, 0, .failed, some 7, some "boom"⟩] = pre ++ [statusEvent o'] ∧
      ∀ e ∈ pre, ∀ s f em, e ≠ SSEEvent.status s f em) :=
  ⟨by decide,
   c3_terminal_emits_single_final_status 0 [⟨none, 0, .failed, some 7, some "boom"⟩]
     ⟨⟨none, 0, .failed, some 7, some "boom"⟩, by simp, Or.inr rfl⟩⟩

/-- C6: a log record whose message opens with the structured-event delimiter
but whose payload fails to decode is emitted as a generic `log` event carrying
the record's timestamp and message, and the stream continues past it: the
records after it in the same poll are still translated, and later polls still
run. -/
theorem c6_malformed_payload_falls_back (t : Nat) (l₁ l₂ : List LogRecord)
    (o : PollObs) (rest : List PollObs)
    (hlogs : o.logsObs = some (l₁ ++ ⟨t, "[tool_calls] not-json"⟩ :: l₂))
    (hrun : o.statusObs = .running) :
    recordToEvent ⟨t, "[tool_calls] not-json"⟩ = .log t "[tool_calls] not-json" ∧
    event_generator 0 (o :: rest) =
      l₁.map recordToEvent ++ SSEEvent.log t "[tool_calls] not-json" ::
        (l₂.map recordToEvent ++ event_generator o.logsLen rest) := by
  have hb : recordToEvent ⟨t, "[tool_calls] not-json"⟩ = .log t "[tool_calls] not-json" := rfl
  refine ⟨hb, ?_⟩
  have hnt : ¬(o.statusObs = .success ∨ o.statusObs = .failed) := by
    rw [hrun]; rintro (h | h) <;> exact TaskStatus.noConfusion h
  simp [event_generator, pollEvents, hlogs, hnt, hb]

/-- Witness for C6 at a concrete input: a poll over a good record, the
malformed record, and a decodable structured record emits the good record's
log event, the fallback log event, and the typed event, in order. -/
theorem c6_malformed_payload_falls_back_witness :
    event_generator 0
      [⟨some [⟨1, "hello"⟩, ⟨2, "[tool_calls] not-json"⟩, ⟨3, "[progress] 42"⟩], 3, .running,
        none, none⟩] =
      [SSEEvent.log 1 "hello", SSEEvent.log 2 "[tool_calls] not-json",
       SSEEvent.typed "progress" (.num "42")] ∧
    recordToEvent ⟨2, "[tool_calls] not-json"⟩ = .log 2 "[tool_calls] not-json" :=
  ⟨by decide,
   (c6_malformed_payload_falls_back 2 [⟨1, "hello"⟩] [⟨3, "[progress] 42"⟩]
     ⟨some [⟨1, "hello"⟩, ⟨2, "[tool_calls] not-json"⟩, ⟨3, "[progress] 42"⟩], 3, .running,
      none, none⟩ [] rfl rfl).1⟩

/-- C9: at the external interface the status value of a task is always one of
the four lowercase strings of the `TaskStatus` enumeration, lower-casing is
the identity on them, and consequently the terminal status event carries
exactly the stored status string. -/
theorem c9_status_strings_lowercase :
    (∀ s : TaskStatus, statusStr s ∈ ["pending", "running", "success", "failed"] ∧
      pyLower (statusStr s) = statusStr s) ∧
    (∀ o : PollObs, statusEvent o =
      SSEEvent.status (statusStr o.statusObs) o.finishedObs o.errorObs) := by
  constructor
  · intro s
    cases s <;> exact ⟨by decide, by decide⟩
  · intro o
    unfold statusEvent
    cases h : o.statusObs <;> simp [h] <;> decide

/-- A concrete run: a task submitted with prompt "p" whose body performs no
callback and completes normally. -/
def cexState : ServerState := run_agent initialState "t" "p"

/-- The runner's atomic writes for the concrete run. -/
def cexActs : List Action := execute_agent_actions "p" (.runs [] none)

/-- The observable state trace of the concrete run. -/
def cexTrace : List ServerState := runStates "t" cexState cexActs

/-- The final state of a concrete run whose provider initialisation raises
with message "boom". -/
def c8state : ServerState :=
  execState "t" (run_agent initialState "t" "p")
    (execute_agent_actions "p" (.providerFails "boom" "tb"))

/-- A relay poll reading that final state from offset 0. -/
def c8obs : PollObs :=
  { logsObs := c8state.task_logs "t"
    logsLen := ((c8state.task_logs "t").getD []).length
    statusObs := ((c8state.tasks "t").getD default).status
    finishedObs := ((c8state.tasks "t").getD default).finished_at
    errorObs := ((c8state.tasks "t").getD default).error_message }

/-- A message that does not open with the structured-event delimiter is
relayed as a generic log event. -/
lemma recordToEvent_not_structured (n : Nat) (msg : String)
    (h : msg.data.head? ≠ some '[') :
    recordToEvent ⟨n, msg⟩ = .log n msg := by
  unfold recordToEvent splitEvent
  cases hd : msg.data with
  | nil => simp
  | cons c cs =>
    have hc : ¬c = '[' := by rw [hd] at h; simpa using h
    simp [hc]

/-- The head character of an appended string is the head of its left part. -/
lemma head_of_append (s : String) (c : Char) (rest : List Char)
    (hs : s.data = c :: rest) (t : String) : ((s ++ t).data).head? = some c := by
  rw [String.data_append, hs]; rfl

/-- The except-handler's error message is never empty: it always carries the
fixed prefix. -/
lemma prefixed_error_ne_empty (e : String) : ("Agent execution failed: " ++ e) ≠ "" := by
  intro h
  have h2 := congrArg String.data h
  rw [String.data_append] at h2
  exact absurd (List.append_eq_nil.mp h2).1 (by decide)

/-- Whatever the body behaviour, the recorded error message is nonempty. -/
lemma scriptError_nonempty (script : BodyScript) :
    ∀ m, scriptError script = some m → m ≠ "" := by
  cases script with
  | providerFails e tb =>
    intro m hm
    cases hm
    exact prefixed_error_ne_empty e
  | agentCtorFails e tb =>
    intro m hm
    cases hm
    exact prefixed_error_ne_empty e
  | runs cbs raised =>
    cases raised with
    | none => intro m hm; exact absurd hm (by simp [scriptError])
    | some p =>
      intro m hm
      cases hm
      exact prefixed_error_ne_empty p.1

/-- Test distinguishing the log-append write from the task-record writes. -/
def isAppendLog : Action → Bool
  | .appendLog _ => true
  | _ => false

/-- C1 counterexample: in the concrete successful run there is an observable
point (right after the `status = SUCCESS` write, before the `finished_at`
write on the next line) at which the task has status SUCCESS with
`finished_at` unset, so the transition is not atomic and the claimed
biconditional fails there. -/
theorem c1_success_with_finished_unset_counterexample :
    (((cexTrace.getD 10 default).tasks "t").getD default).status = .success ∧
    (((cexTrace.getD 10 default).tasks "t").getD default).finished_at = none := by
  decide

/-- C1 (amended): at every observable point `finished_at` is set only if the
status is SUCCESS or FAILED and `error_message` is set only if the status is
FAILED (the converse can fail between the status write and the field writes
of the same transition); at the runner's final state the status is terminal
and `finished_at` is set, so the biconditional holds there. -/
theorem c1_finished_only_when_terminal (st : ServerState) (tid prompt : String)
    (script : BodyScript) :
    (∀ i : Nat,
      taskInv ((((runStates tid (run_agent st tid prompt)
        (execute_agent_actions prompt script)).getD i default).tasks tid).getD default)) ∧
    (((execState tid (run_agent st tid prompt)
        (execute_agent_actions prompt script)).tasks tid).getD default).finished_at ≠ none ∧
    ((((execState tid (run_agent st tid prompt)
        (execute_agent_actions prompt script)).tasks tid).getD default).status = .success ∨
     (((execState tid (run_agent st tid prompt)
        (execute_agent_actions prompt script)).tasks tid).getD default).status = .failed) := by
  refine ⟨?_, ?_⟩
  · intro i
    rcases getD_mem_or (runStates tid (run_agent st tid prompt)
        (execute_agent_actions prompt script)) i default with hm | hd
    · obtain ⟨t, ht, hinv⟩ := trace_inv st tid prompt script _ hm
      rw [ht]
      exact hinv
    · rw [hd]
      exact taskInv_of_none rfl rfl
  · obtain ⟨t, ht, hst, _, hfin⟩ := final_state_fields st tid prompt script
    rw [ht]
    refine ⟨hfin, ?_⟩
    by_cases h : (scriptError script).isSome
    · simp [h] at hst
      exact Or.inr hst
    · simp [h] at hst
      exact Or.inl hst

/-- Witness for C1 at a concrete input. -/
theorem c1_finished_only_when_terminal_witness :
    (∀ i : Nat,
      taskInv ((((runStates "t" (run_agent initialState "t" "p")
        (execute_agent_actions "p" (.runs [] none))).getD i default).tasks "t").getD default)) ∧
    (((execState "t" (run_agent initialState "t" "p")
        (execute_agent_actions "p" (.runs [] none))).tasks "t").getD default).finished_at ≠ none ∧
    ((((execState "t" (run_agent initialState "t" "p")
        (execute_agent_actions "p" (.runs [] none))).tasks "t").getD default).status = .success ∨
     (((execState "t" (run_agent initialState "t" "p")
        (execute_agent_actions "p" (.runs [] none))).tasks "t").getD default).status = .failed) :=
  c1_finished_only_when_terminal initialState "t" "p" (.runs [] none)

/-- C2: the lost-update race of the relay loop, at a concrete valid schedule
over the concrete run: the first poll reads the log while it has one record,
the runner appends the next record before the poll updates its offset with
the live length, and the second poll therefore starts past it; the record
(timestamp 3, the LLM-initialisation message) is in the final log but is
never emitted by the stream. -/
theorem c2_concurrent_append_is_lost :
    validSched cexTrace.length 0 [⟨4, 5, 5⟩, ⟨12, 12, 12⟩] = true ∧
    (⟨3, "🔧 初始化 LLM..."⟩ : LogRecord) ∈ ((cexTrace.getD 12 default).task_logs "t").getD [] ∧
    SSEEvent.log 3 "🔧 初始化 LLM..." ∉
      event_generator 0 ([⟨4, 5, 5⟩, ⟨12, 12, 12⟩].map (obsAt cexTrace "t")) := by
  decide

/-- C4 counterexample: in the concrete successful run the terminal
`status = SUCCESS` write (position 9) precedes a further log append
(position 11, the completion message), so not every append happens strictly
before the terminal status write. -/
theorem c4_append_after_terminal_counterexample :
    ∃ i j : Nat, i < j ∧ cexActs[i]? = some (Action.setStatus .success) ∧
      ∃ m, cexActs[j]? = some (Action.appendLog m) :=
  ⟨9, 11, by decide, by decide, "✅ Agent 執行完成", by decide⟩

/-- C4 (amended): the runner performs exactly one terminal status write, the
only status write before it is the PENDING→RUNNING one, no status write
follows it, and after it the runner performs no log append on the failure
path and exactly one log append (the completion message) on the success
path. -/
theorem c4_no_transition_after_terminal (prompt : String) (script : BodyScript) :
    ∃ pre post,
      execute_agent_actions prompt script =
        pre ++ Action.setStatus
          (if (scriptError script).isSome then .failed else .success) :: post ∧
      (∀ s, Action.setStatus s ∈ pre → s = .running) ∧
      (∀ s, Action.setStatus s ∉ post) ∧
      post.countP (fun a => isAppendLog a) =
        (if (scriptError script).isSome then 0 else 1) := by
  cases script with
  | providerFails e tb =>
    refine ⟨preActions ++ [.appendLog ("❌ 錯誤: Agent execution failed: " ++ e),
        .appendLog ("Traceback: " ++ tb)],
      [.setError ("Agent execution failed: " ++ e), .setFinished], rfl, ?_, ?_, rfl⟩
    · intro s h
      simp [preActions] at h
      exact h
    · intro s
      simp
  | agentCtorFails e tb =>
    refine ⟨preActions ++ ctorActions ++ [.appendLog ("❌ 錯誤: Agent execution failed: " ++ e),
        .appendLog ("Traceback: " ++ tb)],
      [.setError ("Agent execution failed: " ++ e), .setFinished], rfl, ?_, ?_, rfl⟩
    · intro s h
      simp [preActions, ctorActions] at h
      exact h
    · intro s
      simp
  | runs cbs raised =>
    cases raised with
    | none =>
      refine ⟨preActions ++ ctorActions ++ builtActions prompt ++ cbs.map cbAction,
        [.setFinished, .appendLog "✅ Agent 執行完成"],
        by simp [execute_agent_actions, successTail, scriptError, List.append_assoc], ?_, ?_, rfl⟩
      · intro s h
        simp [preActions, ctorActions, builtActions, cbAction] at h
        exact h
      · intro s
        simp
    | some p =>
      obtain ⟨e, tb⟩ := p
      refine ⟨preActions ++ ctorActions ++ builtActions prompt ++ cbs.map cbAction ++
          [.appendLog ("❌ 錯誤: Agent execution failed: " ++ e),
           .appendLog ("Traceback: " ++ tb)],
        [.setError ("Agent execution failed: " ++ e), .setFinished],
        by simp [execute_agent_actions, failTail, scriptError, List.append_assoc], ?_, ?_, rfl⟩
      · intro s h
        simp [preActions, ctorActions, builtActions, cbAction] at h
        exact h
      · intro s
        simp

/-- Witness for C4 at a concrete input. -/
theorem c4_no_transition_after_terminal_witness :
    ∃ pre post,
      execute_agent_actions "p" (.runs [] none) =
        pre ++ Action.setStatus
          (if (scriptError (.runs [] none)).isSome then .failed else .success) :: post ∧
      (∀ s, Action.setStatus s ∈ pre → s = .running) ∧
      (∀ s, Action.setStatus s ∉ post) ∧
      post.countP (fun a => isAppendLog a) =
        (if (scriptError (.runs [] none)).isSome then 0 else 1) :=
  c4_no_transition_after_terminal "p" (.runs [] none)

/-- C5: whatever the body does, the runner terminates with the task in
FAILED carrying exactly the prefixed, nonempty error message and a set
`finished_at` when the body raised, and in SUCCESS with `error_message`
unset and `finished_at` set when it returned normally; the runner is a total
function of the body behaviour, so the failure never propagates. -/
theorem c5_failure_swallowed_and_recorded (st : ServerState) (tid prompt : String)
    (script : BodyScript) :
    ∃ t, (execState tid (run_agent st tid prompt)
        (execute_agent_actions prompt script)).tasks tid = some t ∧
      t.status = (if (scriptError script).isSome then TaskStatus.failed else .success) ∧
      t.error_message = scriptError script ∧
      t.finished_at ≠ none ∧
      (∀ m, scriptError script = some m → m ≠ "") := by
  obtain ⟨t, ht, hst, herr, hfin⟩ := final_state_fields st tid prompt script
  exact ⟨t, ht, hst, herr, hfin, scriptError_nonempty script⟩

/-- Witness for C5 at concrete inputs: one failing body, one normal body. -/
theorem c5_failure_swallowed_and_recorded_witness :
    (∃ t, (execState "t" (run_agent initialState "t" "p")
        (execute_agent_actions "p" (.providerFails "boom" "tb"))).tasks "t" = some t ∧
      t.status = (if (scriptError (.providerFails "boom" "tb")).isSome
        then TaskStatus.failed else .success) ∧
      t.error_message = scriptError (.providerFails "boom" "tb") ∧
      t.finished_at ≠ none ∧
      (∀ m, scriptError (.providerFails "boom" "tb") = some m → m ≠ "")) ∧
    (∃ t, (execState "t" (run_agent initialState "t" "p")
        (execute_agent_actions "p" (.runs [] none))).tasks "t" = some t ∧
      t.status = (if (scriptError (.runs [] none)).isSome
        then TaskStatus.failed else .success) ∧
      t.error_message = scriptError (.runs [] none) ∧
      t.finished_at ≠ none ∧
      (∀ m, scriptError (.runs [] none) = some m → m ≠ "")) :=
  ⟨c5_failure_swallowed_and_recorded initialState "t" "p" (.providerFails "boom" "tb"),
   c5_failure_swallowed_and_recorded initialState "t" "p" (.runs [] none)⟩

/-- C7 counterexample: for a concrete submitted task the get-status response
carries exactly six fields; the stored input payload (`init_prompt`, the
spec's `input`) is not among them, so the snapshot does not contain all the
Task fields of §3. -/
theorem c7_response_omits_input_counterexample :
    (match get_task_status (run_agent initialState "t" "p") "t" with
     | .ok l => l.map Prod.fst
     | .error _ => []) =
      ["task_id", "status", "created_at", "started_at", "finished_at", "error_message"] ∧
    "input" ∉ ["task_id", "status", "created_at", "started_at", "finished_at",
      "error_message"] ∧
    "init_prompt" ∉ ["task_id", "status", "created_at", "started_at", "finished_at",
      "error_message"] := by
  decide

/-- C7 (amended): for every submitted task id the get-status operation
returns a snapshot with exactly the fields task_id, status, created_at,
started_at, finished_at and error_message — the stored input payload is not
echoed — and for an unknown id it returns 404. -/
theorem c7_snapshot_fields_and_404 (st : ServerState) (tid : String) :
    (st.tasks tid = none → get_task_status st tid = .error 404) ∧
    (∀ t, st.tasks tid = some t →
      get_task_status st tid =
        .ok [("task_id", .str t.task_id), ("status", .str (statusStr t.status)),
             ("created_at", .str (toString t.created_at)),
             ("started_at", optTimeJson t.started_at),
             ("finished_at", optTimeJson t.finished_at),
             ("error_message", optStrJson t.error_message)]) := by
  constructor
  · intro h
    simp [get_task_status, h]
  · intro t h
    simp [get_task_status, h]

/-- Witness for C7 at concrete inputs: one known id, one never-submitted id. -/
theorem c7_snapshot_fields_and_404_witness :
    get_task_status initialState "nope" = .error 404 ∧
    get_task_status (run_agent initialState "t" "p") "t" =
      .ok [("task_id", .str "t"), ("status", .str "pending"), ("created_at", .str "0"),
           ("started_at", .null), ("finished_at", .null), ("error_message", .null)] :=
  ⟨(c7_snapshot_fields_and_404 initialState "nope").1 rfl,
   (c7_snapshot_fields_and_404 (run_agent initialState "t" "p") "t").2 _
     (tasks_run_agent initialState "t" "p")⟩

/-- C10: the first write of the runner is the unconditional reset of the
task's log to the empty list; the reset discards whatever log content the id
had before; and from the first post-reset point on, the whole state trace is
the same as if the task's log had been empty all along, so a reader sees only
records appended at or after the runner's start. -/
theorem c10_log_reset_discards_prior_records (st : ServerState) (tid prompt : String)
    (script : BodyScript) (l0 : List LogRecord) :
    (execute_agent_actions prompt script).head? = some Action.resetLog ∧
    (applyAction tid
      { st with task_logs := fun k => if k = tid then some l0 else st.task_logs k }
      .resetLog).task_logs tid = some [] ∧
    (runStates tid
      { st with task_logs := fun k => if k = tid then some l0 else st.task_logs k }
      (execute_agent_actions prompt script)).drop 1 =
    (runStates tid
      { st with task_logs := fun k => if k = tid then some [] else st.task_logs k }
      (execute_agent_actions prompt script)).drop 1 := by
  obtain ⟨rest, hacts⟩ : ∃ rest, execute_agent_actions prompt script = .resetLog :: rest := by
    cases script with
    | providerFails e tb => exact ⟨_, rfl⟩
    | agentCtorFails e tb => exact ⟨_, rfl⟩
    | runs cbs raised => exact ⟨_, rfl⟩
  have hstate :
      applyAction tid
        { st with task_logs := fun k => if k = tid then some l0 else st.task_logs k }
        .resetLog =
      applyAction tid
        { st with task_logs := fun k => if k = tid then some [] else st.task_logs k }
        .resetLog := by
    show ServerState.mk _ _ _ = ServerState.mk _ _ _
    congr 1
    funext k
    by_cases hk : k = tid <;> simp [hk]
  refine ⟨by rw [hacts]; rfl, by simp [applyAction], ?_⟩
  rw [hacts]
  show (runStates tid _ (.resetLog :: rest)).drop 1 = (runStates tid _ (.resetLog :: rest)).drop 1
  simp only [runStates, List.drop_succ_cons, List.drop_zero]
  rw [hstate]

/-- C8 counterexample: for a concrete task whose body raises before any
callback, a stream over the finished task emits four generic log events (the
runner's own progress and error records) before the terminal status event —
not only the terminal status event. -/
theorem c8_stream_not_only_status_counterexample :
    event_generator 0 [c8obs] =
      [.log 2 "🚀 開始執行 Agent", .log 3 "🔧 初始化 LLM...",
       .log 4 "❌ 錯誤: Agent execution failed: boom", .log 5 "Traceback: tb",
       .status "failed" (some 6) (some "Agent execution failed: boom")] := by
  decide

/-- C8 (amended): when the body raises before any callback the task
progresses PENDING→RUNNING→FAILED with the nonempty prefixed error message,
and a stream reading the finished task emits the runner's own four progress
and error records as generic log events followed by the terminal status
event with status "failed" and the same message — the status event is last
but not alone. -/
theorem c8_failing_body_progression_and_stream (st : ServerState)
    (tid prompt e tb : String) :
    (((run_agent st tid prompt).tasks tid).getD default).status = .pending ∧
    (((execState tid (run_agent st tid prompt)
        ((execute_agent_actions prompt (.providerFails e tb)).take 2)).tasks tid).getD
          default).status = .running ∧
    (((execState tid (run_agent st tid prompt)
        (execute_agent_actions prompt (.providerFails e tb))).tasks tid).getD
          default).status = .failed ∧
    (((execState tid (run_agent st tid prompt)
        (execute_agent_actions prompt (.providerFails e tb))).tasks tid).getD
          default).error_message = some ("Agent execution failed: " ++ e) ∧
    ("Agent execution failed: " ++ e) ≠ "" ∧
    event_generator 0
      [{ logsObs := (execState tid (run_agent st tid prompt)
            (execute_agent_actions prompt (.providerFails e tb))).task_logs tid
         logsLen := (((execState tid (run_agent st tid prompt)
            (execute_agent_actions prompt (.providerFails e tb))).task_logs tid).getD
              []).length
         statusObs := (((execState tid (run_agent st tid prompt)
            (execute_agent_actions prompt (.providerFails e tb))).tasks tid).getD
              default).status
         finishedObs := (((execState tid (run_agent st tid prompt)
            (execute_agent_actions prompt (.providerFails e tb))).tasks tid).getD
              default).finished_at
         errorObs := (((execState tid (run_agent st tid prompt)
            (execute_agent_actions prompt (.providerFails e tb))).tasks tid).getD
              default).error_message }] =
      [.log (st.clock + 2) "🚀 開始執行 Agent",
       .log (st.clock + 3) "🔧 初始化 LLM...",
       .log (st.clock + 4) ("❌ 錯誤: Agent execution failed: " ++ e),
       .log (st.clock + 5) ("Traceback: " ++ tb),
       .status "failed" (some (st.clock + 6)) (some ("Agent execution failed: " ++ e))] := by
  have hF_tasks : (execState tid (run_agent st tid prompt)
      (execute_agent_actions prompt (.providerFails e tb))).tasks tid =
      some { task_id := tid, status := .failed, init_prompt := prompt,
             created_at := st.clock, started_at := some (st.clock + 1),
             finished_at := some (st.clock + 6),
             error_message := some ("Agent execution failed: " ++ e) } := by
    simp [execute_agent_actions, preActions, failTail, execState]
  have hF_logs : (execState tid (run_agent st tid prompt)
      (execute_agent_actions prompt (.providerFails e tb))).task_logs tid =
      some [⟨st.clock + 2, "🚀 開始執行 Agent"⟩, ⟨st.clock + 3, "🔧 初始化 LLM..."⟩,
            ⟨st.clock + 4, "❌ 錯誤: Agent execution failed: " ++ e⟩,
            ⟨st.clock + 5, "Traceback: " ++ tb⟩] := by
    simp [execute_agent_actions, preActions, failTail, execState]
  have hERR : ∀ n : Nat, recordToEvent ⟨n, "❌ 錯誤: Agent execution failed: " ++ e⟩ =
      .log n ("❌ 錯誤: Agent execution failed: " ++ e) := by
    intro n
    apply recordToEvent_not_structured
    rw [head_of_append "❌ 錯誤: Agent execution failed: " '❌' _ rfl e]
    decide
  have hTB : ∀ n : Nat, recordToEvent ⟨n, "Traceback: " ++ tb⟩ =
      .log n ("Traceback: " ++ tb) := by
    intro n
    apply recordToEvent_not_structured
    rw [head_of_append "Traceback: " 'T' _ rfl tb]
    decide
  refine ⟨by simp, ?_, by rw [hF_tasks]; rfl, by rw [hF_tasks]; rfl,
    prefixed_error_ne_empty e, ?_⟩
  · have htake : (execute_agent_actions prompt (.providerFails e tb)).take 2 =
        [.resetLog, .setStatus .running] := rfl
    rw [htake]
    simp [execState]
  · rw [hF_tasks, hF_logs]
    simp [event_generator, pollEvents, statusEvent, hERR, hTB]
    exact ⟨rfl, rfl, by decide⟩

/-- Witness for C8 at a concrete input. -/
theorem c8_failing_body_progression_and_stream_witness :
    (((run_agent initialState "t" "p").tasks "t").getD default).status = .pending ∧
    (((execState "t" (run_agent initialState "t" "p")
        ((execute_agent_actions "p" (.providerFails "boom" "tb")).take 2)).tasks "t").getD
          default).status = .running ∧
    (((execState "t" (run_agent initialState "t" "p")
        (execute_agent_actions "p" (.providerFails "boom" "tb"))).tasks "t").getD
          default).status = .failed ∧
    (((execState "t" (run_agent initialState "t" "p")
        (execute_agent_actions "p" (.providerFails "boom" "tb"))).tasks "t").getD
          default).error_message = some ("Agent execution failed: " ++ "boom") ∧
    ("Agent execution failed: " ++ "boom") ≠ "" ∧
    event_generator 0
      [{ logsObs := (execState "t" (run_agent initialState "t" "p")
            (execute_agent_actions "p" (.providerFails "boom" "tb"))).task_logs "t"
         logsLen := (((execState "t" (run_agent initialState "t" "p")
            (execute_agent_actions "p" (.providerFails "boom" "tb"))).task_logs "t").getD
              []).length
         statusObs := (((execState "t" (run_agent initialState "t" "p")
            (execute_agent_actions "p" (.providerFails "boom" "tb"))).tasks "t").getD
              default).status
         finishedObs := (((execState "t" (run_agent initialState "t" "p")
            (execute_agent_actions "p" (.providerFails "boom" "tb"))).tasks "t").getD
              default).finished_at
         errorObs := (((execState "t" (run_agent initialState "t" "p")
            (execute_agent_actions "p" (.providerFails "boom" "tb"))).tasks "t").getD
              default).error_message }] =
      [.log (initialState.clock + 2) "🚀 開始執行 Agent",
       .log (initialState.clock + 3) "🔧 初始化 LLM...",
       .log (initialState.clock + 4) ("❌ 錯誤: Agent execution failed: " ++ "boom"),
       .log (initialState.clock + 5) ("Traceback: " ++ "tb"),
       .status "failed" (some (initialState.clock + 6))
         (some ("Agent execution failed: " ++ "boom"))] :=
  c8_failing_body_progression_and_stream initialState "t" "p" "boom" "tb"

end AiServer
